import Mathlib

/-!
Verification of the schema-versioned serialization layer of torcx
(`src/internal/torcx/types.go`): internal data model, V0/V1 image schema
converters, archive-format decode/defaulting, and the remote-catalog
converter, embedded shallowly in Lean.

Go slices are modelled as `Option (List α)`: `none` is a nil slice,
`some l` a non-nil slice with elements `l` (so `some []` is the non-nil
empty slice `[]T{}`). Go maps are modelled as functions to `Option`.
Go's `append` on a possibly-nil slice is `goAppend`.
-/

/-- Go `append(s, x)`: appending to a nil slice allocates, so the result
is always non-nil. -/
def goAppend {α : Type} (s : Option (List α)) (x : α) : Option (List α) :=
  some (s.getD [] ++ [x])

/-- Decode errors surfaced by this layer (§7 of the design). -/
inductive DecodeError where
  | invalidArchiveFormat (msg : String)
  | malformedJSON (msg : String)
deriving DecidableEq

/-- `Image` from types.go: normalized addon identity. -/
structure Image where
  Name : String
  Reference : String
  Remote : String
deriving DecidableEq

/-- `ArchiveFormat` from types.go: `type ArchiveFormat string`. -/
abbrev ArchiveFormat := String

/-- `ArchiveFormatUnknown` from types.go. -/
def ArchiveFormatUnknown : ArchiveFormat := ""

/-- `ArchiveFormatTgz` from types.go. -/
def ArchiveFormatTgz : ArchiveFormat := "tgz"

/-- `ArchiveFormatSquashfs` from types.go. -/
def ArchiveFormatSquashfs : ArchiveFormat := "squashfs"

/-- `Archive` from types.go: embeds `Image`, adds filepath and format. -/
structure Archive where
  image : Image
  Filepath : String
  Format : ArchiveFormat
deriving DecidableEq

/-- `ArchiveFormat.UnmarshalJSON` from types.go, at the level of the
already-decoded JSON string: switch on the string, accept `tgz` and
`squashfs`, otherwise return the `fmt.Errorf` message built from
`%q, %q` of the two valid literals. -/
def ArchiveFormat.UnmarshalJSON (s : String) : Except DecodeError ArchiveFormat :=
  if s = ArchiveFormatTgz then Except.ok ArchiveFormatTgz
  else if s = ArchiveFormatSquashfs then Except.ok ArchiveFormatSquashfs
  else Except.error (DecodeError.invalidArchiveFormat
    "could not unmarshal into ArchiveFormat: must be one of \"tgz\", \"squashfs\"")

/-- A JSON document for an `Archive`, field-presence explicit: `none`
means the field is absent from the document. For `format`, `some s`
is the raw JSON string the field carries. -/
structure ArchiveDoc where
  name : Option String
  reference : Option String
  remote : Option String
  filepath : Option String
  format : Option String
deriving DecidableEq

/-- `Archive.UnmarshalJSON` from types.go: decode the record (Go's
`encoding/json` leaves an absent field at its zero value and runs
`ArchiveFormat.UnmarshalJSON` on a present `format`, propagating its
error), then overwrite an `ArchiveFormatUnknown` format with tgz. -/
def Archive.UnmarshalJSON (doc : ArchiveDoc) : Except DecodeError Archive := do
  let fmtRaw ← (match doc.format with
    | none => pure ArchiveFormatUnknown
    | some s => ArchiveFormat.UnmarshalJSON s)
  let fmt := if fmtRaw = ArchiveFormatUnknown then ArchiveFormatTgz else fmtRaw
  pure { image := { Name := doc.name.getD "", Reference := doc.reference.getD "",
                    Remote := doc.remote.getD "" },
         Filepath := doc.filepath.getD "", Format := fmt }

/-- `ArchiveFormat.FileSuffix` from types.go:
`fmt.Sprintf(".torcx.%s", arf)`. -/
def ArchiveFormat.FileSuffix (arf : ArchiveFormat) : String :=
  ".torcx." ++ arf

/-- Modelled from the spec: wire struct `ImageV0` (declared outside
src/), carrying `name` and `reference` (§6). -/
structure ImageV0 where
  Name : String
  Reference : String
deriving DecidableEq

/-- Modelled from the spec: wire struct `ImageV1` (declared outside
src/), carrying `name`, `reference` and `remote` (§6). -/
structure ImageV1 where
  Name : String
  Reference : String
  Remote : String
deriving DecidableEq

/-- Modelled from the spec: list wrapper `ImagesV0` (declared outside
src/); its `Images` field is a Go slice. -/
structure ImagesV0 where
  Images : Option (List ImageV0)
deriving DecidableEq

/-- Modelled from the spec: list wrapper `ImagesV1` (declared outside
src/); its `Images` field is a Go slice. -/
structure ImagesV1 where
  Images : Option (List ImageV1)
deriving DecidableEq

/-- `Image.ToJSONV0` from types.go. -/
def Image.ToJSONV0 (im : Image) : ImageV0 :=
  { Name := im.Name, Reference := im.Reference }

/-- `ImageFromJSONV0` from types.go. -/
def ImageFromJSONV0 (j : ImageV0) : Image :=
  { Name := j.Name, Reference := j.Reference, Remote := "" }

/-- `Image.ToJSONV1` from types.go (note: the source sets the wire
`Remote` field to the empty string literal). -/
def Image.ToJSONV1 (im : Image) : ImageV1 :=
  { Name := im.Name, Reference := im.Reference, Remote := "" }

/-- `ImageFromJSONV1` from types.go. -/
def ImageFromJSONV1 (j : ImageV1) : Image :=
  { Name := j.Name, Reference := j.Reference, Remote := j.Remote }

/-- `ImagesToJSONV0` from types.go: start from `ImagesV0{}` (nil inner
slice) and append the per-item conversion of each input element. -/
def ImagesToJSONV0 (ims : Option (List Image)) : ImagesV0 :=
  { Images := (ims.getD []).foldl (fun acc im => goAppend acc im.ToJSONV0) none }

/-- `ImagesFromJSONV0` from types.go: start from `[]Image{}` (non-nil
empty slice) and append the per-item conversion of each element. -/
def ImagesFromJSONV0 (j : ImagesV0) : Option (List Image) :=
  (j.Images.getD []).foldl (fun acc im => goAppend acc (ImageFromJSONV0 im)) (some [])

/-- `ImagesToJSONV1` from types.go. -/
def ImagesToJSONV1 (ims : Option (List Image)) : ImagesV1 :=
  { Images := (ims.getD []).foldl (fun acc im => goAppend acc im.ToJSONV1) none }

/-- `ImagesFromJSONV1` from types.go. -/
def ImagesFromJSONV1 (j : ImagesV1) : Option (List Image) :=
  (j.Images.getD []).foldl (fun acc im => goAppend acc (ImageFromJSONV1 im)) (some [])

/-- Modelled from the spec: wire struct `RemoteVersionV1` (declared
outside src/), a straight field record (§4.4, §6). -/
structure RemoteVersionV1 where
  Format : String
  Version : String
  Hash : String
  Location : String
deriving DecidableEq

/-- Modelled from the spec: wire struct `RemoteImageV1` (declared
outside src/): name, default version, and a slice of versions. -/
structure RemoteImageV1 where
  Name : String
  DefaultVersion : String
  Versions : Option (List RemoteVersionV1)
deriving DecidableEq

/-- Modelled from the spec: wire struct `RemoteImagesV1` (declared
outside src/), the catalog: a slice of image entries. -/
structure RemoteImagesV1 where
  Images : Option (List RemoteImageV1)
deriving DecidableEq

/-- `RemoteVersion` from types.go. -/
structure RemoteVersion where
  format : String
  version : String
  hash : String
  location : String
deriving DecidableEq

/-- `RemoteImage` from types.go. -/
structure RemoteImage where
  defaultVersion : String
  name : String
  versions : Option (List RemoteVersion)
deriving DecidableEq

/-- `RemoteContents` from types.go: a Go map from image name to
`RemoteImage`, modelled as a function to `Option`. -/
structure RemoteContents where
  Images : String → Option RemoteImage

/-- `RemoteVersionFromJSONV1` from types.go. -/
def RemoteVersionFromJSONV1 (j : RemoteVersionV1) : RemoteVersion :=
  { format := j.Format, hash := j.Hash, location := j.Location, version := j.Version }

/-- The loop body of `RemoteContentsFromJSONV1` from types.go that builds
`tmpImage` for one non-empty-named entry: `tmpVersions` starts as the
non-nil empty slice and each version is appended through
`RemoteVersionFromJSONV1`. -/
def translateRemoteImageV1 (im : RemoteImageV1) : RemoteImage :=
  { name := im.Name, defaultVersion := im.DefaultVersion,
    versions := (im.Versions.getD []).foldl
      (fun acc v => goAppend acc (RemoteVersionFromJSONV1 v)) (some []) }

/-- The map-building loop of `RemoteContentsFromJSONV1` from types.go:
start from the empty map literal, skip entries with empty name, and
store each remaining entry's translation under its name (a map store
overwrites any earlier entry with the same key). -/
def buildRemoteImages (l : List RemoteImageV1) : String → Option RemoteImage :=
  l.foldl
    (fun m im =>
      if im.Name = "" then m
      else fun k => if k = im.Name then some (translateRemoteImageV1 im) else m k)
    (fun _ => none)

/-- `RemoteContentsFromJSONV1` from types.go. -/
def RemoteContentsFromJSONV1 (j : RemoteImagesV1) : RemoteContents :=
  { Images := buildRemoteImages (j.Images.getD []) }

/-- A kind-value envelope document, field-presence explicit: `kind` is
`none` when the top-level `kind` field is missing or not a string;
`value` holds the opaque raw bytes of the `value` field. -/
structure EnvelopeDoc where
  kind : Option String
  value : Option String
deriving DecidableEq

/-- Modelled from the spec: the envelope decode operation of §4.1 over
`kindValueJSON` (only the `kindValueJSON` declaration is under src/; the
decode function lives elsewhere in the repository). Spec: "fails with
`MalformedEnvelope` if the top-level document is not an object or `kind`
is not a string" and §8 "Decoding an envelope whose top-level `kind`
field is missing fails with `MalformedJSON`". -/
def decodeEnvelope (doc : EnvelopeDoc) : Except DecodeError (String × String) :=
  match doc.kind with
  | none => Except.error (DecodeError.malformedJSON "envelope: kind is missing or not a string")
  | some k => Except.ok (k, doc.value.getD "")

/-- The last entry of `l` whose `Name` equals `n` (input order). -/
def lastEntryNamed (n : String) (l : List RemoteImageV1) : Option RemoteImageV1 :=
  (l.filter (fun im => im.Name == n)).getLast?

/- Helper lemmas -/

theorem foldl_goAppend_some {α β : Type} (f : α → β) (l : List α) (acc : List β) :
    l.foldl (fun s x => goAppend s (f x)) (some acc) = some (acc ++ l.map f) := by
  induction l generalizing acc with
  | nil => simp
  | cons x xs ih =>
      rw [List.foldl_cons]
      have hstep : goAppend (some acc) (f x) = some (acc ++ [f x]) := rfl
      rw [hstep, ih]
      simp

theorem foldl_goAppend_getD {α β : Type} (f : α → β) (l : List α)
    (init : Option (List β)) :
    (l.foldl (fun s x => goAppend s (f x)) init).getD [] = init.getD [] ++ l.map f := by
  cases init with
  | some acc => rw [foldl_goAppend_some]; rfl
  | none =>
      cases l with
      | nil => rfl
      | cons x xs =>
          rw [List.foldl_cons]
          have hstep : goAppend none (f x) = some [f x] := rfl
          rw [hstep, foldl_goAppend_some]
          simp

theorem buildRemoteImages_append (l : List RemoteImageV1) (im : RemoteImageV1)
    (k : String) :
    buildRemoteImages (l ++ [im]) k =
      if im.Name = "" then buildRemoteImages l k
      else if k = im.Name then some (translateRemoteImageV1 im)
           else buildRemoteImages l k := by
  by_cases h : im.Name = ""
  · simp only [buildRemoteImages, List.foldl_append, List.foldl_cons,
      List.foldl_nil, if_pos h]
  · simp only [buildRemoteImages, List.foldl_append, List.foldl_cons,
      List.foldl_nil, if_neg h]

theorem buildRemoteImages_last (n : String) (hn : n ≠ "") :
    ∀ (l : List RemoteImageV1) (im : RemoteImageV1),
      lastEntryNamed n l = some im →
        buildRemoteImages l n = some (translateRemoteImageV1 im) := by
  intro l
  induction l using List.reverseRecOn with
  | nil => intro im h; simp [lastEntryNamed] at h
  | append_singleton l x ih =>
      intro im h
      unfold lastEntryNamed at h
      rw [List.filter_append] at h
      by_cases hx : x.Name = n
      · have hfx : List.filter (fun e => e.Name == n) [x] = [x] := by
          simp [List.filter_cons, hx]
        rw [hfx, List.getLast?_concat] at h
        injection h with h'
        subst h'
        have hxe : x.Name ≠ "" := by rw [hx]; exact hn
        rw [buildRemoteImages_append, if_neg hxe, if_pos hx.symm]
      · have hfx : List.filter (fun e => e.Name == n) [x] = [] := by
          simp [List.filter_cons, hx]
        rw [hfx, List.append_nil] at h
        have hl := ih _ h
        rw [buildRemoteImages_append]
        by_cases hx0 : x.Name = ""
        · rw [if_pos hx0]; exact hl
        · rw [if_neg hx0, if_neg (fun hnx : n = x.Name => hx hnx.symm)]
          exact hl

theorem except_bind_error {ε α β : Type} (e : ε) (f : α → Except ε β) :
    (Except.error e >>= f) = Except.error e := rfl

theorem except_bind_ok {ε α β : Type} (a : α) (f : α → Except ε β) :
    (Except.ok a >>= f) = f a := rfl

theorem archiveFormat_unmarshal_ok (s : String) (fmt : ArchiveFormat)
    (h : ArchiveFormat.UnmarshalJSON s = Except.ok fmt) :
    fmt = ArchiveFormatTgz ∨ fmt = ArchiveFormatSquashfs := by
  unfold ArchiveFormat.UnmarshalJSON at h
  split at h
  · exact Or.inl (Except.ok.inj h).symm
  · split at h
    · exact Or.inr (Except.ok.inj h).symm
    · exact Except.noConfusion h

/- Claim theorems -/

/-- C1: evaluating the V1 round trip at a concrete image with a
non-empty remote: `Image.ToJSONV1` writes an empty wire `Remote`, so
`ImageFromJSONV1 (Image.ToJSONV1 img)` clears the remote instead of
preserving it. -/
theorem toJSONV1_roundtrip_clears_remote :
    ImageFromJSONV1 (Image.ToJSONV1
        { Name := "etcd", Reference := "v3.1", Remote := "origin-1" }) =
      { Name := "etcd", Reference := "v3.1", Remote := "" } := rfl

/-- C2: for every internal image with non-empty remote, the V0 round trip
preserves name and reference and forces remote to the empty string. -/
theorem imageFromJSONV0_toJSONV0_lossy (im : Image) (h : im.Remote ≠ "") :
    ImageFromJSONV0 im.ToJSONV0 =
      { Name := im.Name, Reference := im.Reference, Remote := "" } := rfl

/-- Witness for C2 at a concrete image with non-empty remote. -/
theorem imageFromJSONV0_toJSONV0_lossy_witness :
    ImageFromJSONV0 (Image.ToJSONV0
        { Name := "etcd", Reference := "v3.1", Remote := "origin-1" }) =
      { Name := "etcd", Reference := "v3.1", Remote := "" } :=
  imageFromJSONV0_toJSONV0_lossy
    { Name := "etcd", Reference := "v3.1", Remote := "origin-1" } (by decide)

/-- C8: `FileSuffix` maps `tgz` to `.torcx.tgz` and `squashfs` to
`.torcx.squashfs`. -/
theorem fileSuffix_spec :
    ArchiveFormat.FileSuffix ArchiveFormatTgz = ".torcx.tgz" ∧
      ArchiveFormat.FileSuffix ArchiveFormatSquashfs = ".torcx.squashfs" :=
  ⟨rfl, rfl⟩

/-- C9: decoding an envelope whose top-level `kind` field is missing
fails with a `MalformedJSON` error rather than succeeding. -/
theorem decodeEnvelope_missing_kind (doc : EnvelopeDoc) (h : doc.kind = none) :
    decodeEnvelope doc =
      Except.error (DecodeError.malformedJSON "envelope: kind is missing or not a string") := by
  unfold decodeEnvelope
  rw [h]

/-- Witness for C9 at a concrete document with no `kind` field. -/
theorem decodeEnvelope_missing_kind_witness :
    decodeEnvelope { kind := none, value := some "payload" } =
      Except.error (DecodeError.malformedJSON "envelope: kind is missing or not a string") :=
  decodeEnvelope_missing_kind { kind := none, value := some "payload" } rfl

/-- C3: `ArchiveFormat` decoding accepts exactly `tgz` and `squashfs`
(yielding the corresponding value) and fails on every other string with
an `InvalidArchiveFormat` error whose message contains the two valid
literals (the message is spelled here as a concatenation around the
literals `tgz` and `squashfs`). -/
theorem archiveFormat_unmarshal_spec (s : String) :
    (ArchiveFormat.UnmarshalJSON s = Except.ok ArchiveFormatTgz ↔ s = "tgz") ∧
    (ArchiveFormat.UnmarshalJSON s = Except.ok ArchiveFormatSquashfs ↔ s = "squashfs") ∧
    (s ≠ "tgz" → s ≠ "squashfs" →
      ArchiveFormat.UnmarshalJSON s = Except.error (DecodeError.invalidArchiveFormat
        ("could not unmarshal into ArchiveFormat: must be one of \"" ++ "tgz" ++
          "\", \"" ++ "squashfs" ++ "\""))) := by
  by_cases h1 : s = "tgz" <;> by_cases h2 : s = "squashfs" <;>
    simp_all [ArchiveFormat.UnmarshalJSON, ArchiveFormatTgz, ArchiveFormatSquashfs]

/-- Witness for C3 at the empty string: it is rejected like any other
unrecognized token. -/
theorem archiveFormat_unmarshal_spec_witness :
    ArchiveFormat.UnmarshalJSON "" = Except.error (DecodeError.invalidArchiveFormat
      ("could not unmarshal into ArchiveFormat: must be one of \"" ++ "tgz" ++
        "\", \"" ++ "squashfs" ++ "\"")) :=
  (archiveFormat_unmarshal_spec "").2.2 (by decide) (by decide)

/-- C4: decoding an `Archive` with `format` absent succeeds with format
tgz; an explicit empty-string `format` fails with `InvalidArchiveFormat`;
an explicit valid `format` is kept unchanged. -/
theorem archive_unmarshal_format_defaulting (doc : ArchiveDoc) :
    (doc.format = none →
      (Archive.UnmarshalJSON doc).map Archive.Format = Except.ok ArchiveFormatTgz) ∧
    (doc.format = some "" →
      Archive.UnmarshalJSON doc = Except.error (DecodeError.invalidArchiveFormat
        "could not unmarshal into ArchiveFormat: must be one of \"tgz\", \"squashfs\"")) ∧
    (doc.format = some "tgz" →
      (Archive.UnmarshalJSON doc).map Archive.Format = Except.ok ArchiveFormatTgz) ∧
    (doc.format = some "squashfs" →
      (Archive.UnmarshalJSON doc).map Archive.Format = Except.ok ArchiveFormatSquashfs) := by
  refine ⟨?_, ?_, ?_, ?_⟩ <;> intro h <;> unfold Archive.UnmarshalJSON <;> rw [h] <;> rfl

/-- Witness for C4 at a concrete document with no `format` field. -/
theorem archive_unmarshal_format_defaulting_witness :
    (Archive.UnmarshalJSON
        { name := some "etcd", reference := some "v3.1", remote := none,
          filepath := some "/p", format := none }).map Archive.Format =
      Except.ok ArchiveFormatTgz :=
  (archive_unmarshal_format_defaulting
    { name := some "etcd", reference := some "v3.1", remote := none,
      filepath := some "/p", format := none }).1 rfl

/-- C10: whenever `Archive` decoding succeeds, the resulting `Format` is
exactly tgz or squashfs, never the unknown/zero value. -/
theorem archive_unmarshal_format_never_unknown (doc : ArchiveDoc) (ar : Archive)
    (h : Archive.UnmarshalJSON doc = Except.ok ar) :
    ar.Format = ArchiveFormatTgz ∨ ar.Format = ArchiveFormatSquashfs := by
  unfold Archive.UnmarshalJSON at h
  split at h
  · left
    rw [← Except.ok.inj h]
    rfl
  · rename_i s _
    rcases hres : ArchiveFormat.UnmarshalJSON s with e | fmt <;> rw [hres] at h
    · rw [except_bind_error] at h
      exact Except.noConfusion h
    · rw [except_bind_ok] at h
      rcases archiveFormat_unmarshal_ok s fmt hres with hf | hf <;> subst hf <;>
        [left; right] <;> rw [← Except.ok.inj h] <;> rfl

/-- Witness for C10 at a concrete document with an explicit squashfs
format. -/
theorem archive_unmarshal_format_never_unknown_witness :
    ({ image := { Name := "", Reference := "", Remote := "" }, Filepath := "",
       Format := "squashfs" } : Archive).Format = ArchiveFormatTgz ∨
    ({ image := { Name := "", Reference := "", Remote := "" }, Filepath := "",
       Format := "squashfs" } : Archive).Format = ArchiveFormatSquashfs :=
  archive_unmarshal_format_never_unknown
    { name := none, reference := none, remote := none, filepath := none,
      format := some "squashfs" } _ rfl

/-- The two-entry catalog of C5: one entry with empty name, one named
etcd. -/
def catalogC5 : RemoteImagesV1 :=
  { Images := some [
      { Name := "", DefaultVersion := "v0", Versions := some [] },
      { Name := "etcd", DefaultVersion := "v3.1", Versions := some [] } ] }

/-- C5: `RemoteContentsFromJSONV1` silently skips the empty-named entry:
the result contains exactly the entry keyed etcd. -/
theorem remoteContents_skips_empty_name :
    (RemoteContentsFromJSONV1 catalogC5).Images "etcd" =
        some { name := "etcd", defaultVersion := "v3.1", versions := some [] } ∧
      ∀ k, k ≠ "etcd" → (RemoteContentsFromJSONV1 catalogC5).Images k = none := by
  constructor
  · rfl
  · intro k hk
    simp only [RemoteContentsFromJSONV1, catalogC5, buildRemoteImages,
      Option.getD_some, List.foldl_cons, List.foldl_nil]
    simp [hk]

/-- Witness for C5: looking up a key other than etcd (here the empty
name itself) finds nothing. -/
theorem remoteContents_skips_empty_name_witness :
    (RemoteContentsFromJSONV1 catalogC5).Images "" = none :=
  remoteContents_skips_empty_name.2 "" (by decide)

/-- C6: duplicate non-empty names in the input catalog are resolved
last-one-wins: the kept entry is the translation of the last entry with
that name in input order. -/
theorem remoteContents_last_wins (j : RemoteImagesV1) (n : String) (hn : n ≠ "")
    (im : RemoteImageV1) (h : lastEntryNamed n (j.Images.getD []) = some im) :
    (RemoteContentsFromJSONV1 j).Images n = some (translateRemoteImageV1 im) :=
  buildRemoteImages_last n hn _ im h

/-- The two-duplicate catalog used to witness C6. -/
def catalogC6 : RemoteImagesV1 :=
  { Images := some [
      { Name := "etcd", DefaultVersion := "v3.1", Versions := some [] },
      { Name := "etcd", DefaultVersion := "v3.2", Versions := some [] } ] }

/-- Witness for C6: with two entries both named etcd, the result keeps
the translation of the second (last) one. -/
theorem remoteContents_last_wins_witness :
    (RemoteContentsFromJSONV1 catalogC6).Images "etcd" =
      some (translateRemoteImageV1
        { Name := "etcd", DefaultVersion := "v3.2", Versions := some [] }) :=
  remoteContents_last_wins catalogC6 "etcd" (by decide)
    { Name := "etcd", DefaultVersion := "v3.2", Versions := some [] } (by decide)

/-- C7: the V0 list round trip yields a non-nil list of the same length
and order whose elements are the lossy projections (remote cleared); in
particular the empty input yields `some []`, never a nil slice. -/
theorem imagesV0_roundtrip (ims : Option (List Image)) :
    ImagesFromJSONV0 (ImagesToJSONV0 ims) =
      some ((ims.getD []).map (fun im =>
        { Name := im.Name, Reference := im.Reference, Remote := "" })) := by
  have h1 : (ImagesToJSONV0 ims).Images =
      (ims.getD []).foldl (fun acc im => goAppend acc im.ToJSONV0) none := rfl
  unfold ImagesFromJSONV0
  rw [h1, foldl_goAppend_getD, foldl_goAppend_some]
  simp [List.map_map]
  exact fun a _ => rfl
